import Mathlib

/-!
Verification development for the node debug delegate
(`src/targets/node/nodeDelegate.ts`): a shallow embedding of the
launcher, the target tree, the per-target attach/detach queue, the
environment builder and the process-exit watcher, together with
theorems settling the specified properties.
-/

namespace NodeDelegate

/-! ## Decimal rendering of numbers

JavaScript template literals render numbers in decimal
(`` `node-cdp.${process.pid}-${++counter}.sock` ``, line 115).  We embed
that rendering and prove it injective via a digit-valuation round trip.
-/

/-- One decimal digit character, `'0' + d`. -/
def digitChar (d : Nat) : Char := Char.ofNat (48 + d)

/-- Decimal digit list (most significant first) of a natural number, as a
JavaScript number-to-string conversion produces it. -/
def decChars (n : Nat) : List Char :=
  if _h : n < 10 then [digitChar n]
  else decChars (n / 10) ++ [digitChar (n % 10)]
  termination_by n
  decreasing_by
    exact Nat.div_lt_self (by omega) (by omega)

/-- Decimal rendering of a natural number as a string. -/
def natToString (n : Nat) : String := String.mk (decChars n)

/-- Valuation of a digit character. -/
def digitVal (c : Char) : Nat := c.toNat - 48

/-- Valuation of a digit list, most significant first. -/
def digitsVal (l : List Char) : Nat := l.foldl (fun a c => a * 10 + digitVal c) 0

theorem digitVal_digitChar (d : Nat) (hd : d < 10) : digitVal (digitChar d) = d := by
  interval_cases d <;> decide

theorem digitsVal_append_one (l : List Char) (c : Char) :
    digitsVal (l ++ [c]) = digitsVal l * 10 + digitVal c := by
  simp [digitsVal, List.foldl_append]

theorem digitsVal_decChars (n : Nat) : digitsVal (decChars n) = n := by
  induction n using Nat.strong_induction_on with
  | _ n ih =>
    rw [decChars]
    by_cases h : n < 10
    · rw [dif_pos h]
      simp [digitsVal, digitVal_digitChar n h]
    · rw [dif_neg h]
      rw [digitsVal_append_one, ih (n / 10) (Nat.div_lt_self (by omega) (by omega)),
        digitVal_digitChar (n % 10) (Nat.mod_lt n (by omega))]
      omega

theorem natToString_injective : Function.Injective natToString := by
  intro a b hab
  have h : decChars a = decChars b := by
    have := congrArg String.data hab
    simpa [natToString] using this
  have := congrArg digitsVal h
  rwa [digitsVal_decChars, digitsVal_decChars] at this

/-! ## Transport endpoint paths (`_startServer`, lines 113–119)

```ts
_startServer() {
  const pipePrefix = process.platform === 'win32' ? '\\\\.\\pipe\\' : os.tmpdir();
  this._pipe = path.join(pipePrefix, `node-cdp.${process.pid}-${++counter}.sock`);
  this._server = net.createServer(...).listen(this._pipe);
}
```

`counter` is the module-level `let counter = 0` (line 24).  `path.join`
of the fixed platform root with a separator-free file name is the root,
a separator, and the name; `pipeRootSep` stands for that platform root
together with the join separator, fixed for the process lifetime.
-/

/-- The platform pipe/temp root picked on line 114: the named-pipe
namespace on win32, the temp directory elsewhere. -/
def pipeRootFor (isWin32 : Bool) (tmpdir : String) : String :=
  if isWin32 then "\\\\.\\pipe\\" else tmpdir

/-- The endpoint path built on line 115 from the platform root (with the
join separator), the host process id and the counter value used. -/
def mkPipePath (pipeRootSep : String) (pid c : Nat) : String :=
  pipeRootSep ++ "node-cdp." ++ natToString pid ++ "-" ++ natToString c ++ ".sock"

/-- Launcher server state relevant to `_startServer`: the module-level
counter and the `_pipe` field. -/
structure ServerState where
  counter : Nat
  pipe : Option String
  deriving DecidableEq

/-- One `_startServer()` call: pre-increments the module counter and
stores the freshly built endpoint path in `_pipe`. -/
def startServer (pipeRootSep : String) (pid : Nat) (s : ServerState) : ServerState :=
  { counter := s.counter + 1
    pipe := some (mkPipePath pipeRootSep pid (s.counter + 1)) }

/-- State after `n` consecutive `_startServer()` calls. -/
def serverAfter (pipeRootSep : String) (pid : Nat) (s : ServerState) : Nat → ServerState
  | 0 => s
  | n + 1 => startServer pipeRootSep pid (serverAfter pipeRootSep pid s n)

theorem serverAfter_counter (root : String) (pid : Nat) (s : ServerState) (n : Nat) :
    (serverAfter root pid s n).counter = s.counter + n := by
  induction n with
  | zero => rfl
  | succ n ih => simp [serverAfter, startServer, ih]; omega

theorem serverAfter_pipe (root : String) (pid : Nat) (s : ServerState) (n : Nat) :
    (serverAfter root pid s (n + 1)).pipe
      = some (mkPipePath root pid (s.counter + n + 1)) := by
  simp [serverAfter, startServer, serverAfter_counter]

theorem mkPipePath_inj (root : String) (pid : Nat) {c₁ c₂ : Nat}
    (h : mkPipePath root pid c₁ = mkPipePath root pid c₂) : c₁ = c₂ := by
  unfold mkPipePath at h
  have hdata := congrArg String.data h
  simp only [String.data_append] at hdata
  have h₁ := List.append_cancel_right hdata
  have h₂ : decChars c₁ = decChars c₂ := List.append_cancel_left h₁
  have h₃ := congrArg digitsVal h₂
  rwa [digitsVal_decChars, digitsVal_decChars] at h₃

/-- C5: within one hosting-process lifetime, the `i`-th and `j`-th of `N`
consecutive `_startServer` invocations (`1 ≤ i < j ≤ N`) produce distinct
endpoint paths; each path has the form
`<platform pipe/temp root><host-process-id>-<counter>.sock` (the root
portion being the fixed platform prefix up to the process id), and the
module-level counter strictly increases across the calls. -/
theorem startServer_endpoint_uniqueness (root : String) (pid : Nat) (s : ServerState)
    (N i j : Nat) (hi : 1 ≤ i) (hij : i < j) (hjN : j ≤ N) :
    (serverAfter root pid s i).pipe ≠ (serverAfter root pid s j).pipe
    ∧ (serverAfter root pid s i).pipe
        = some ((root ++ "node-cdp.") ++ natToString pid ++ "-"
            ++ natToString (s.counter + i) ++ ".sock")
    ∧ (serverAfter root pid s i).counter < (serverAfter root pid s j).counter := by
  have hN : 0 < N := by omega
  obtain ⟨i', rfl⟩ : ∃ i', i = i' + 1 := ⟨i - 1, by omega⟩
  obtain ⟨j', rfl⟩ : ∃ j', j = j' + 1 := ⟨j - 1, by omega⟩
  have hpi := serverAfter_pipe root pid s i'
  have hpj := serverAfter_pipe root pid s j'
  refine ⟨?_, ?_, ?_⟩
  · intro hcontra
    rw [hpi, hpj] at hcontra
    have := mkPipePath_inj root pid (Option.some.inj hcontra)
    omega
  · rw [hpi]
    have : s.counter + i' + 1 = s.counter + (i' + 1) := by omega
    rw [this]
    rfl
  · rw [serverAfter_counter, serverAfter_counter]
    omega

/-- Witness for `startServer_endpoint_uniqueness` at a concrete root, pid
and call indices. -/
theorem startServer_endpoint_uniqueness_witness :
    (serverAfter "/tmp/" 7 ⟨0, none⟩ 1).pipe ≠ (serverAfter "/tmp/" 7 ⟨0, none⟩ 2).pipe
    ∧ (serverAfter "/tmp/" 7 ⟨0, none⟩ 1).pipe
        = some (("/tmp/" ++ "node-cdp.") ++ natToString 7 ++ "-"
            ++ natToString (ServerState.counter ⟨0, none⟩ + 1) ++ ".sock")
    ∧ (serverAfter "/tmp/" 7 ⟨0, none⟩ 1).counter < (serverAfter "/tmp/" 7 ⟨0, none⟩ 2).counter :=
  startServer_endpoint_uniqueness "/tmp/" 7 ⟨0, none⟩ 2 1 2 (by decide) (by decide) (by decide)

/-! ## Target tree (`NodeTarget`, lines 168–266)

Each `NodeTarget` object holds `_parent : NodeTarget | undefined` and
`_children : NodeTarget[]`; the launcher holds `_targets`, a map from
target id to target.  Targets are modelled by their ids: `tgt` gives the
per-object state of the object currently known under an id, and
`targetKeys` is the key set of the launcher's `_targets` map. -/

/-- Tree-relevant fields of one `NodeTarget` object. -/
structure NTarget where
  parent : Option String
  children : List String
  deriving DecidableEq

/-- The target tree: per-id object state plus the launcher's `_targets`
map keys. -/
structure TreeState where
  tgt : String → NTarget
  targetKeys : List String

/-- Update the object state stored under one id. -/
def updTgt (s : TreeState) (k : String) (f : NTarget → NTarget) : TreeState :=
  { s with tgt := fun x => if x = k then f (s.tgt x) else s.tgt x }

/-- JavaScript `Array.prototype.indexOf`: first index of `x`, `-1` when
absent. -/
def indexOfJS (l : List String) (x : String) : Int :=
  match l.findIdx? (fun y => y = x) with
  | some i => (i : Int)
  | none => -1

/-- JavaScript `Array.prototype.splice(i, 1)`: a negative start counts
from the end (clamped at 0), a start beyond the length removes nothing. -/
def spliceOneJS (l : List String) (i : Int) : List String :=
  let start : Nat := if i < 0 then (l.length + i).toNat else min i.toNat l.length
  l.take start ++ l.drop (start + 1)

/-- `this._parent._children.splice(this._parent._children.indexOf(this), 1)`
(line 254). -/
def spliceOut (l : List String) (x : String) : List String :=
  spliceOneJS l (indexOfJS l x)

/-- `_setParent` (lines 252–258): remove `t` from its old parent's child
list, assign the new parent, and append `t` to the new parent's child
list. -/
def setParent (s : TreeState) (t : String) (p : Option String) : TreeState :=
  let s₁ := match (s.tgt t).parent with
    | some old => updTgt s old (fun n => { n with children := spliceOut n.children t })
    | none => s
  let s₂ := updTgt s₁ t (fun n => { n with parent := p })
  match p with
  | some newP => updTgt s₂ newP (fun n => { n with children := n.children ++ [t] })
  | none => s₂

/-- One visit of the `forEach` loop in `_disconnected` (line 261): as in
JavaScript, index `i` is only visited if it still exists in the (possibly
shrunk) current child array, and the callback reads `this._parent` at
call time. -/
def forEachVisit (s : TreeState) (t : String) (i : Nat) : TreeState :=
  let ch := (s.tgt t).children
  if h : i < ch.length then setParent s (ch.get ⟨i, h⟩) ((s.tgt t).parent) else s

/-- `_disconnected` (lines 260–266): iterate the reparenting callback over
the indices `0 .. n-1` fixed by the child count at loop entry, then detach
from the tree and delete this target from the launcher's map. -/
def disconnected (s : TreeState) (t : String) : TreeState :=
  let n := (s.tgt t).children.length
  let s₁ := (List.range n).foldl (fun acc i => forEachVisit acc t i) s
  let s₂ := setParent s₁ t none
  { s₂ with targetKeys := s₂.targetKeys.erase t }

/-- Map lookup `delegate._targets.get(targetInfo.openerId!)` (line 193):
an id is found only when it is a key of the map. -/
def lookupOpener (s : TreeState) (openerId : Option String) : Option String :=
  match openerId with
  | some o => if o ∈ s.targetKeys then some o else none
  | none => none

/-- Map insert `delegate._targets.set(targetId, this)` (line 194). -/
def mapSet (keys : List String) (k : String) : List String :=
  if k ∈ keys then keys else keys ++ [k]

/-- Tree effect of the `NodeTarget` constructor (lines 181–197): a fresh
object (no parent, no children) is stored under the target id,
`_setParent` is called with the opener lookup result, and the target is
registered in the launcher's map. -/
def constructTarget (s : TreeState) (targetId : String) (openerId : Option String) : TreeState :=
  let s₀ : TreeState :=
    { s with tgt := fun x => if x = targetId then ⟨none, []⟩ else s.tgt x }
  let s₁ := setParent s₀ targetId (lookupOpener s openerId)
  { s₁ with targetKeys := mapSet s₁.targetKeys targetId }

/-- `hasParent()` (lines 248–250). -/
def hasParent (s : TreeState) (t : String) : Bool :=
  (s.tgt t).parent.isSome

/-- A concrete tree: root `R` with child `A`, and `A` with the two
children `B` and `C` (in discovery order). -/
def exTree : TreeState where
  tgt := fun k =>
    if k = "R" then ⟨none, ["A"]⟩
    else if k = "A" then ⟨some "R", ["B", "C"]⟩
    else if k = "B" then ⟨some "A", []⟩
    else if k = "C" then ⟨some "A", []⟩
    else ⟨none, []⟩
  targetKeys := ["R", "A", "B", "C"]

/-- C3 (failing run): when target `A` — parent `R`, children `B` and `C` —
disconnects, the `forEach` loop in `_disconnected` mutates the very array
it iterates (each `_setParent` splices the child out of `A._children`), so
only `B` is visited: `B` is reparented to `R`, while `C` keeps the deleted
`A` as parent and never joins `R`'s children.  `A` itself is removed from
the launcher map as claimed.  This contradicts the claim that every child
of a disconnecting target ends with its parent set to the target's own
parent. -/
theorem disconnected_skips_second_child :
    ((disconnected exTree "A").tgt "B").parent = some "R"
    ∧ "B" ∈ ((disconnected exTree "A").tgt "R").children
    ∧ ((disconnected exTree "A").tgt "C").parent = some "A"
    ∧ "C" ∉ ((disconnected exTree "A").tgt "R").children
    ∧ "A" ∉ (disconnected exTree "A").targetKeys
    ∧ (exTree.tgt "A").children = ["B", "C"] := by
  decide

/-- C10: constructing a target whose opener id is present but matches no
key of the launcher's `_targets` map yields exactly the state produced
with no opener at all: the new target is a root (`parent` is `undefined`,
`hasParent()` is false) and no other target's child list changes. -/
theorem constructTarget_unknown_opener_is_root (s : TreeState) (tid o : String)
    (ho : o ∉ s.targetKeys) :
    constructTarget s tid (some o) = constructTarget s tid none
    ∧ ((constructTarget s tid (some o)).tgt tid).parent = none
    ∧ hasParent (constructTarget s tid (some o)) tid = false
    ∧ ∀ k, k ≠ tid → ((constructTarget s tid (some o)).tgt k).children = (s.tgt k).children := by
  have hlook : lookupOpener s (some o) = none := by
    simp [lookupOpener, ho]
  have htid : ((constructTarget s tid (some o)).tgt tid).parent = none := by
    simp [constructTarget, hlook, setParent, updTgt]
  refine ⟨?_, htid, ?_, ?_⟩
  · simp [constructTarget, hlook, show lookupOpener s none = none from rfl]
  · simp [hasParent, htid]
  · intro k hk
    simp [constructTarget, hlook, setParent, updTgt, hk]

/-- Witness for `constructTarget_unknown_opener_is_root`: a map holding
only `R`, a new target `T` whose opener `X` is not in the map. -/
theorem constructTarget_unknown_opener_is_root_witness :
    constructTarget ⟨fun _ => ⟨none, []⟩, ["R"]⟩ "T" (some "X")
        = constructTarget ⟨fun _ => ⟨none, []⟩, ["R"]⟩ "T" none
    ∧ ((constructTarget ⟨fun _ => ⟨none, []⟩, ["R"]⟩ "T" (some "X")).tgt "T").parent = none
    ∧ hasParent (constructTarget ⟨fun _ => ⟨none, []⟩, ["R"]⟩ "T" (some "X")) "T" = false
    ∧ ∀ k, k ≠ "T" →
        ((constructTarget ⟨fun _ => ⟨none, []⟩, ["R"]⟩ "T" (some "X")).tgt k).children
          = ((⟨fun _ => ⟨none, []⟩, ["R"]⟩ : TreeState).tgt k).children :=
  constructTarget_unknown_opener_is_root ⟨fun _ => ⟨none, []⟩, ["R"]⟩ "T" "X" (by decide)

/-! ## Attach/detach serialization queue (lines 177–179, 268–312)

`attach()` and `detach()` each replace `_serialize` with
`_serialize.then(callback)`, so the enqueued callbacks form a chain: a
callback becomes runnable exactly when its predecessor's promise has
settled, and when the predecessor rejected the callback is skipped and
the rejection propagates.  The machine below executes such a chain under
an adversarial scheduler.  Key source facts embedded:

* `_doAttach` (lines 281–295) sets `_waitingForDebugger = false` and
  `_attached = true` *before* awaiting the remote
  `Target.attachToTarget` call; the attach callback returns
  `this._doAttach()`, so the op's promise settles with the remote call.
* the detach callback (lines 301–307) calls `this._doDetach()` *without*
  `await` or `return`, so the op's promise settles immediately while the
  remote `Target.detachFromTarget` call is still in flight;
  `_attached = false` happens only when that background call resolves
  (line 311), and its rejection is unhandled.
-/

/-- The kind of an enqueued operation. -/
inductive OpKind
  | attach
  | detach
  deriving DecidableEq

/-- The settled value of an operation's promise: the protocol handle
(`this._cdp`), `undefined`, or a rejection. -/
inductive Outcome
  | api
  | noValue
  | rejected
  deriving DecidableEq

/-- Status of one enqueued operation in the chain. -/
inductive OpStatus
  | notStarted
  | awaitingRemote
  | settled (o : Outcome)
  deriving DecidableEq

/-- State of one target's serialization queue together with the fields it
guards and counters of remote calls issued. -/
structure QState where
  ops : List OpKind
  status : List OpStatus
  attached : Bool
  waiting : Bool
  attachCalls : Nat
  detachCalls : Nat
  detachInFlight : Nat
  deriving DecidableEq

/-- Initial state after the constructor (lines 177–179): empty chain,
`_attached = false`, `_waitingForDebugger` from the target descriptor. -/
def QState.init (w : Bool) : QState :=
  { ops := [], status := [], attached := false, waiting := w
    attachCalls := 0, detachCalls := 0, detachInFlight := 0 }

/-- Scheduler commands: a caller enqueues an operation; the event loop
runs the next chained callback; a pending remote attach call settles; a
background remote detach call settles. -/
inductive QCmd
  | enq (k : OpKind)
  | runNext
  | attachResult (ok : Bool)
  | detachResult (ok : Bool)
  deriving DecidableEq

/-- Index of the first operation whose callback has not run yet. -/
def firstNotStarted (l : List OpStatus) : Option Nat :=
  l.findIdx? (fun st => st = OpStatus.notStarted)

/-- Run the head callback of the chain when its predecessor has settled:
the body of `attach()`/`detach()` (lines 272–279 and 301–307), with the
skip-on-rejection behaviour of `.then`. -/
def runNextOp (s : QState) : QState :=
  match firstNotStarted s.status with
  | none => s
  | some i =>
    let predSettled : Option Outcome :=
      if i = 0 then some Outcome.noValue
      else match s.status[i - 1]? with
        | some (OpStatus.settled o) => some o
        | _ => none
    match predSettled with
    | none => s
    | some Outcome.rejected =>
      -- predecessor rejected: the callback is skipped and the
      -- rejection propagates to this op's promise
      { s with status := s.status.set i (OpStatus.settled Outcome.rejected) }
    | some _ =>
      match s.ops[i]? with
      | none => s
      | some OpKind.attach =>
        if s.attached then
          -- line 274: already attached, resolve as a no-op
          { s with status := s.status.set i (OpStatus.settled Outcome.noValue) }
        else
          -- lines 282–284: flags are set before the remote call is issued
          { s with
            waiting := false
            attached := true
            attachCalls := s.attachCalls + 1
            status := s.status.set i OpStatus.awaitingRemote }
      | some OpKind.detach =>
        if s.attached then
          -- line 305: `this._doDetach();` is not awaited — the remote
          -- call is issued and the op's promise settles immediately
          { s with
            detachCalls := s.detachCalls + 1
            detachInFlight := s.detachInFlight + 1
            status := s.status.set i (OpStatus.settled Outcome.noValue) }
        else
          -- lines 303–304: not attached, resolve as a no-op
          { s with status := s.status.set i (OpStatus.settled Outcome.noValue) }

/-- Index of the operation awaiting its remote attach call, if any. -/
def awaitingIdx (l : List OpStatus) : Option Nat :=
  l.findIdx? (fun st => st = OpStatus.awaitingRemote)

/-- One scheduler step. -/
def qStep (s : QState) (c : QCmd) : QState :=
  match c with
  | QCmd.enq k =>
    -- lines 273 / 302: chain one more callback onto `_serialize`
    { s with ops := s.ops ++ [k], status := s.status ++ [OpStatus.notStarted] }
  | QCmd.runNext => runNextOp s
  | QCmd.attachResult ok =>
    match awaitingIdx s.status with
    | none => s
    | some i =>
      if ok then
        -- lines 285–294: subscriptions, then the op settles with the api
        { s with status := s.status.set i (OpStatus.settled Outcome.api) }
      else
        -- the remote call rejected: `_doAttach`'s promise — and hence the
        -- op's promise — rejects, while the flags stay as set
        { s with status := s.status.set i (OpStatus.settled Outcome.rejected) }
  | QCmd.detachResult ok =>
    if s.detachInFlight = 0 then s
    else if ok then
      -- line 311: `_attached = false` after the remote call resolves
      { s with detachInFlight := s.detachInFlight - 1, attached := false }
    else
      -- a rejected remote detach is unhandled: no state change
      { s with detachInFlight := s.detachInFlight - 1 }

/-- Run the queue machine from the constructor state under a command
schedule. -/
def qRun (w : Bool) (cs : List QCmd) : QState :=
  cs.foldl qStep (QState.init w)

/-- C1 (counterexample): on a fresh target created waiting for the
debugger, one `attach()` whose remote call rejects leaves the target with
`attached = true` and `waitingForDebugger = false` — the flags were set
before the remote call (lines 282–283) — contradicting the claim that a
failed attach leaves `attached` false and `waitingForDebugger` at its
prior value.  The rejection itself does reach the caller's promise. -/
theorem attach_failure_counterexample :
    (QState.init true).waiting = true
    ∧ (qRun true [QCmd.enq OpKind.attach, QCmd.runNext, QCmd.attachResult false]).status
        = [OpStatus.settled Outcome.rejected]
    ∧ (qRun true [QCmd.enq OpKind.attach, QCmd.runNext, QCmd.attachResult false]).attached
        = true
    ∧ (qRun true [QCmd.enq OpKind.attach, QCmd.runNext, QCmd.attachResult false]).waiting
        = false := by
  decide

/-- C1 (amended): for either initial `waitingForDebugger` value, a failed
remote attach rejects the caller's promise (the failure propagates), but
the target's state is already mutated — `attached` is true and
`waitingForDebugger` false — and a subsequently enqueued `attach()` is no
retry: its callback is skipped, its promise rejects, and no second remote
attach call is issued. -/
theorem attach_failure_propagates_but_state_mutated (w : Bool) :
    (qRun w [QCmd.enq OpKind.attach, QCmd.runNext, QCmd.attachResult false,
        QCmd.enq OpKind.attach, QCmd.runNext]).status
        = [OpStatus.settled Outcome.rejected, OpStatus.settled Outcome.rejected]
    ∧ (qRun w [QCmd.enq OpKind.attach, QCmd.runNext, QCmd.attachResult false,
        QCmd.enq OpKind.attach, QCmd.runNext]).attached = true
    ∧ (qRun w [QCmd.enq OpKind.attach, QCmd.runNext, QCmd.attachResult false,
        QCmd.enq OpKind.attach, QCmd.runNext]).waiting = false
    ∧ (qRun w [QCmd.enq OpKind.attach, QCmd.runNext, QCmd.attachResult false,
        QCmd.enq OpKind.attach, QCmd.runNext]).attachCalls = 1 := by
  cases w <;> decide

/-- C2 (failing run): after a successful attach, two `detach()` calls are
enqueued; because the detach callback fires `this._doDetach()` without
awaiting it (line 305), the chain advances immediately: the second remote
detach call is issued while the first is still in flight
(`detachInFlight = 2`), so transitions are not executed one at a time.  A
subsequently enqueued `attach()` then observes the stale `attached = true`
and resolves as a no-op, after which the background detach completes and
the target ends detached even though the last operation was an attach —
`attached` is not observed and mutated atomically with respect to the
queue. -/
theorem detach_not_serialized :
    (qRun false [QCmd.enq OpKind.attach, QCmd.runNext, QCmd.attachResult true,
        QCmd.enq OpKind.detach, QCmd.enq OpKind.detach, QCmd.runNext,
        QCmd.runNext]).detachInFlight = 2
    ∧ (qRun false [QCmd.enq OpKind.attach, QCmd.runNext, QCmd.attachResult true,
        QCmd.enq OpKind.detach, QCmd.enq OpKind.detach, QCmd.runNext,
        QCmd.runNext]).detachCalls = 2
    ∧ (qRun false [QCmd.enq OpKind.attach, QCmd.runNext, QCmd.attachResult true,
        QCmd.enq OpKind.detach, QCmd.enq OpKind.detach, QCmd.runNext, QCmd.runNext,
        QCmd.enq OpKind.attach, QCmd.runNext, QCmd.detachResult true,
        QCmd.detachResult true]).status[3]?
        = some (OpStatus.settled Outcome.noValue)
    ∧ (qRun false [QCmd.enq OpKind.attach, QCmd.runNext, QCmd.attachResult true,
        QCmd.enq OpKind.detach, QCmd.enq OpKind.detach, QCmd.runNext, QCmd.runNext,
        QCmd.enq OpKind.attach, QCmd.runNext, QCmd.detachResult true,
        QCmd.detachResult true]).attached = false
    ∧ (qRun false [QCmd.enq OpKind.attach, QCmd.runNext, QCmd.attachResult true,
        QCmd.enq OpKind.detach, QCmd.enq OpKind.detach, QCmd.runNext, QCmd.runNext,
        QCmd.enq OpKind.attach, QCmd.runNext, QCmd.detachResult true,
        QCmd.detachResult true]).attachCalls = 1 := by
  decide

/-- C6 (counterexample): two `attach()` calls enqueued on a detached
target before either runs settle with different values — the first with
the protocol handle, the second with `undefined` (line 275's bare
`return`) — contradicting the claim that both resolve to the same
outcome.  The remote attach call is issued exactly once. -/
theorem concurrent_attach_outcomes_differ :
    (qRun false [QCmd.enq OpKind.attach, QCmd.enq OpKind.attach, QCmd.runNext,
        QCmd.attachResult true, QCmd.runNext]).status[0]?
        = some (OpStatus.settled Outcome.api)
    ∧ (qRun false [QCmd.enq OpKind.attach, QCmd.enq OpKind.attach, QCmd.runNext,
        QCmd.attachResult true, QCmd.runNext]).status[1]?
        = some (OpStatus.settled Outcome.noValue)
    ∧ (qRun false [QCmd.enq OpKind.attach, QCmd.enq OpKind.attach, QCmd.runNext,
        QCmd.attachResult true, QCmd.runNext]).status[0]?
        ≠ (qRun false [QCmd.enq OpKind.attach, QCmd.enq OpKind.attach, QCmd.runNext,
            QCmd.attachResult true, QCmd.runNext]).status[1]?
    ∧ (qRun false [QCmd.enq OpKind.attach, QCmd.enq OpKind.attach, QCmd.runNext,
        QCmd.attachResult true, QCmd.runNext]).attachCalls = 1 := by
  decide

/-- C6 (amended): for either initial `waitingForDebugger` value, two
`attach()` calls enqueued concurrently on a detached target both resolve
— the first with the protocol handle, the second as a no-op with
`undefined` — the remote attach call is issued exactly once, and the
target ends attached. -/
theorem concurrent_attach_single_remote_call (w : Bool) :
    (qRun w [QCmd.enq OpKind.attach, QCmd.enq OpKind.attach, QCmd.runNext,
        QCmd.attachResult true, QCmd.runNext]).status
        = [OpStatus.settled Outcome.api, OpStatus.settled Outcome.noValue]
    ∧ (qRun w [QCmd.enq OpKind.attach, QCmd.enq OpKind.attach, QCmd.runNext,
        QCmd.attachResult true, QCmd.runNext]).attachCalls = 1
    ∧ (qRun w [QCmd.enq OpKind.attach, QCmd.enq OpKind.attach, QCmd.runNext,
        QCmd.attachResult true, QCmd.runNext]).attached = true := by
  cases w <;> decide

/-! ## Restart vs. the process-exit watcher (lines 75–80, 103–111)

`restart()` sets `_isRestarting`, kills the old process, restarts the
listener and process, and clears `_isRestarting` when it completes.  The
watcher registered for the old process by `_relaunch` keeps polling at
one-second ticks; when it detects the death of the (killed) old process
it cancels itself and runs the callback, which fires the terminated
notification unless `_isRestarting` is set at that moment (lines 76–79).
The machine interleaves the restart phases with that detection. -/

/-- Launcher state relevant to restart suppression. -/
structure RState where
  isRestarting : Bool
  terminatedCount : Nat
  oldWatcherActive : Bool
  oldKilled : Bool
  deriving DecidableEq

/-- Interleaving events: the synchronous head of `restart()` (line 105:
`_isRestarting = true`, line 106: the old process is killed), the
completion of `restart()` (line 110: `_isRestarting = false`), and the
old-process watcher's tick that detects the death. -/
inductive REv
  | restartStart
  | restartFinish
  | pollOldDead
  deriving DecidableEq

/-- One interleaving step. -/
def rStep (s : RState) (e : REv) : RState :=
  match e with
  | REv.restartStart => { s with isRestarting := true, oldKilled := true }
  | REv.restartFinish => { s with isRestarting := false }
  | REv.pollOldDead =>
    if s.oldWatcherActive ∧ s.oldKilled then
      -- lines 374–377: clearInterval, then the callback; lines 76–79:
      -- the terminated notification fires unless `_isRestarting`
      if s.isRestarting then
        { s with oldWatcherActive := false }
      else
        { s with oldWatcherActive := false, terminatedCount := s.terminatedCount + 1 }
    else s

/-- Initial state: a launch has registered the watcher for the current
process; no restart yet. -/
def RState.init : RState :=
  { isRestarting := false, terminatedCount := 0, oldWatcherActive := true, oldKilled := false }

/-- Run an interleaving of restart phases and watcher ticks. -/
def rRun (es : List REv) : RState :=
  es.foldl rStep RState.init

/-- C4 (counterexample): if the watcher's tick detects the killed old
process's death only after `restart()` has completed — `_isRestarting` is
already false again — the terminated notification fires, contradicting
the claim that it is suppressed for every interleaving including
detection after `restart()` completes. -/
theorem restart_terminated_counterexample :
    (rRun [REv.restartStart, REv.restartFinish, REv.pollOldDead]).terminatedCount = 1 := by
  decide

theorem rRun_suppressed_aux (es : List REv) : ∀ s : RState,
    (∀ i, (hi : i < es.length) → es.get ⟨i, hi⟩ = REv.pollOldDead →
      ((es.take i).foldl rStep s).isRestarting = true) →
    (es.foldl rStep s).terminatedCount = s.terminatedCount := by
  induction es with
  | nil => intro s _; rfl
  | cons e rest ih =>
    intro s h
    have h0 : e = REv.pollOldDead → s.isRestarting = true := by
      intro he
      have := h 0 (by simp) (by simpa using he)
      simpa using this
    have hstep : (rStep s e).terminatedCount = s.terminatedCount := by
      cases e with
      | restartStart => rfl
      | restartFinish => rfl
      | pollOldDead =>
        have hr : s.isRestarting = true := h0 rfl
        simp only [rStep, hr, if_true]
        split <;> rfl
    have hrest : ∀ i, (hi : i < rest.length) → rest.get ⟨i, hi⟩ = REv.pollOldDead →
        ((rest.take i).foldl rStep (rStep s e)).isRestarting = true := by
      intro i hi hev
      have := h (i + 1) (by simpa using Nat.succ_lt_succ hi) (by simpa using hev)
      simpa [List.take_succ_cons] using this
    calc (List.foldl rStep s (e :: rest)).terminatedCount
        = (List.foldl rStep (rStep s e) rest).terminatedCount := rfl
      _ = (rStep s e).terminatedCount := ih (rStep s e) hrest
      _ = s.terminatedCount := hstep

/-- C4 (amended): the terminated notification is suppressed for every
interleaving in which each detection of the old process's death happens
while `_isRestarting` is still set, i.e. strictly inside the restart
window; a detection arriving after `restart()` completes is not covered
(see the counterexample).  In any such interleaving no terminated
notification ever fires. -/
theorem restart_suppresses_terminated_in_window (es : List REv)
    (h : ∀ i, (hi : i < es.length) → es.get ⟨i, hi⟩ = REv.pollOldDead →
      (rRun (es.take i)).isRestarting = true) :
    (rRun es).terminatedCount = 0 :=
  rRun_suppressed_aux es RState.init h

/-- Witness for `restart_suppresses_terminated_in_window`: the detection
tick lands between the start and the completion of `restart()`. -/
theorem restart_suppresses_terminated_in_window_witness :
    (rRun [REv.restartStart, REv.pollOldDead, REv.restartFinish]).terminatedCount = 0 :=
  restart_suppresses_terminated_in_window
    [REv.restartStart, REv.pollOldDead, REv.restartFinish]
    (by decide)

/-! ## Process-exit watcher (`onProcessExit`, lines 369–380)

Every second the watcher probes the process with `process.kill(pid, 0)`;
a success means alive, an `EPERM` failure is tolerated, any other failure
cancels the interval and runs the callback. -/

/-- Outcome of one liveness probe. -/
inductive Probe
  | alive
  | eperm
  | otherErr
  deriving DecidableEq

/-- Watcher state: whether the interval is still scheduled, and how often
the death callback has run. -/
structure WState where
  active : Bool
  callbackCount : Nat
  deriving DecidableEq

/-- One interval tick (lines 370–379). -/
def watchStep (s : WState) (p : Probe) : WState :=
  if s.active = false then s
  else match p with
    | Probe.alive => s
    | Probe.eperm => s
    | Probe.otherErr => { active := false, callbackCount := s.callbackCount + 1 }

/-- Run the watcher over a sequence of probe outcomes. -/
def runWatcher (ps : List Probe) : WState :=
  ps.foldl watchStep ⟨true, 0⟩

/-- The `setInterval` period of line 379, in milliseconds. -/
def probeIntervalMs : Nat := 1000

theorem foldl_watchStep_inactive (ps : List Probe) (s : WState) (h : s.active = false) :
    ps.foldl watchStep s = s := by
  induction ps with
  | nil => rfl
  | cons p rest ih => simp [watchStep, h, ih]

theorem foldl_watchStep_no_fatal (ps : List Probe) (c : Nat)
    (h : Probe.otherErr ∉ ps) :
    ps.foldl watchStep ⟨true, c⟩ = ⟨true, c⟩ := by
  induction ps with
  | nil => rfl
  | cons p rest ih =>
    have hp : p ≠ Probe.otherErr := fun hpe => h (hpe ▸ List.mem_cons_self p rest)
    have hrest : Probe.otherErr ∉ rest := fun hr => h (List.mem_cons_of_mem p hr)
    cases p with
    | alive => simpa [watchStep] using ih hrest
    | eperm => simpa [watchStep] using ih hrest
    | otherErr => exact absurd rfl hp

/-- C9: over any probe sequence made of a conclusive-error-free part `a`
(successes and `EPERM` failures only), a first conclusive error, and an
arbitrary tail `b`: during `a` the callback never runs and polling stays
scheduled; over the whole sequence the callback runs exactly once and the
polling is cancelled, whatever `b` contains; and the probe interval is
the fixed one second. -/
theorem watcher_probe_tolerance (ps a b : List Probe)
    (hshape : ps = a ++ Probe.otherErr :: b) (ha : Probe.otherErr ∉ a) :
    (runWatcher a).callbackCount = 0
    ∧ (runWatcher a).active = true
    ∧ (runWatcher ps).callbackCount = 1
    ∧ (runWatcher ps).active = false
    ∧ probeIntervalMs = 1000 := by
  have hA : runWatcher a = ⟨true, 0⟩ := foldl_watchStep_no_fatal a 0 ha
  have hFull : runWatcher ps = ⟨false, 1⟩ := by
    rw [hshape]
    unfold runWatcher
    rw [List.foldl_append, foldl_watchStep_no_fatal a 0 ha]
    have hstep : watchStep ⟨true, 0⟩ Probe.otherErr = ⟨false, 1⟩ := rfl
    simp only [List.foldl_cons, hstep]
    exact foldl_watchStep_inactive b ⟨false, 1⟩ rfl
  rw [hA, hFull]
  exact ⟨rfl, rfl, rfl, rfl, rfl⟩

/-- Witness for `watcher_probe_tolerance`: an `EPERM` probe and a
success, then a conclusive error, then one more tick. -/
theorem watcher_probe_tolerance_witness :
    (runWatcher [Probe.eperm, Probe.alive]).callbackCount = 0
    ∧ (runWatcher [Probe.eperm, Probe.alive]).active = true
    ∧ (runWatcher [Probe.eperm, Probe.alive, Probe.otherErr, Probe.eperm]).callbackCount = 1
    ∧ (runWatcher [Probe.eperm, Probe.alive, Probe.otherErr, Probe.eperm]).active = false
    ∧ probeIntervalMs = 1000 :=
  watcher_probe_tolerance [Probe.eperm, Probe.alive, Probe.otherErr, Probe.eperm]
    [Probe.eperm, Probe.alive] [Probe.eperm] (by decide) (by decide)

/-! ## Spawned-process environment (`_buildEnv`, lines 146–157)

```ts
let result: any = {
  ...process.env,
  ...this._launchParams!.env || {},
  NODE_INSPECTOR_IPC: this._pipe,
  NODE_INSPECTOR_WAIT_FOR_DEBUGGER: this._launchParams!.attachToNode || 'never',
  NODE_OPTIONS: `${process.env.NODE_OPTIONS|| ''} --require ${bootloaderJS}`,
};
delete result['ELECTRON_RUN_AS_NODE'];
```

Environments are partial maps from variable name to value; later object
spread entries override earlier ones. -/

/-- Object spread `{...e₁, ...e₂}`: entries of `e₂` win. -/
def envMergeJS (e₁ e₂ : String → Option String) : String → Option String :=
  fun k => match e₂ k with
    | some v => some v
    | none => e₁ k

/-- Setting one key of an object literal. -/
def envSet (e : String → Option String) (key v : String) : String → Option String :=
  fun k => if k = key then some v else e k

/-- The `delete` statement. -/
def envDelete (e : String → Option String) (key : String) : String → Option String :=
  fun k => if k = key then none else e k

/-- JavaScript `x || d` on an optional string: absent or empty falls back
to the default. -/
def jsOrString (v : Option String) (d : String) : String :=
  match v with
  | some s => if s = "" then d else s
  | none => d

/-- `_buildEnv` (lines 146–157): inherited environment, overridden by the
launch-supplied environment, then the three injected variables — note the
`NODE_OPTIONS` value reads `process.env.NODE_OPTIONS`, the *inherited*
value — and finally removal of `ELECTRON_RUN_AS_NODE`. -/
def buildEnv (procEnv : String → Option String) (launchEnv : Option (String → Option String))
    (pipe : String) (attachToNode : Option String) (bootloaderJS : String) :
    String → Option String :=
  let userEnv : String → Option String :=
    match launchEnv with
    | some le => le
    | none => fun _ => none
  let base := envMergeJS procEnv userEnv
  let r₁ := envSet base "NODE_INSPECTOR_IPC" pipe
  let r₂ := envSet r₁ "NODE_INSPECTOR_WAIT_FOR_DEBUGGER" (jsOrString attachToNode "never")
  let r₃ := envSet r₂ "NODE_OPTIONS"
    (jsOrString (procEnv "NODE_OPTIONS") "" ++ " --require " ++ bootloaderJS)
  envDelete r₃ "ELECTRON_RUN_AS_NODE"

/-- The claim's reading of the environment build, for comparison: same
pipeline, but the module-preload flag is appended to the *pre-existing
value after the merge* — the launch-supplied `NODE_OPTIONS` when present
— never replacing it. -/
def buildEnvClaim (procEnv : String → Option String) (launchEnv : Option (String → Option String))
    (pipe : String) (attachToNode : Option String) (bootloaderJS : String) :
    String → Option String :=
  let userEnv : String → Option String :=
    match launchEnv with
    | some le => le
    | none => fun _ => none
  let base := envMergeJS procEnv userEnv
  let r₁ := envSet base "NODE_INSPECTOR_IPC" pipe
  let r₂ := envSet r₁ "NODE_INSPECTOR_WAIT_FOR_DEBUGGER" (jsOrString attachToNode "never")
  let r₃ := envSet r₂ "NODE_OPTIONS"
    (jsOrString (base "NODE_OPTIONS") "" ++ " --require " ++ bootloaderJS)
  envDelete r₃ "ELECTRON_RUN_AS_NODE"

/-- Inherited environment carrying `NODE_OPTIONS=--flagY`. -/
def procEnvEx : String → Option String :=
  fun k => if k = "NODE_OPTIONS" then some "--flagY" else none

/-- Launch-supplied environment carrying `NODE_OPTIONS=--flagX`. -/
def launchEnvEx : String → Option String :=
  fun k => if k = "NODE_OPTIONS" then some "--flagX" else none

/-- C8 (counterexample): when the launch-supplied environment also sets
`NODE_OPTIONS`, the code appends the preload flag to the *inherited*
value and thereby replaces the launch-supplied one, while the claim's
merge-then-append reading preserves it: the two disagree. -/
theorem buildEnv_counterexample :
    buildEnv procEnvEx (some launchEnvEx) "p" none "boot.js" "NODE_OPTIONS"
        = some "--flagY --require boot.js"
    ∧ buildEnvClaim procEnvEx (some launchEnvEx) "p" none "boot.js" "NODE_OPTIONS"
        = some "--flagX --require boot.js"
    ∧ buildEnv procEnvEx (some launchEnvEx) "p" none "boot.js" "NODE_OPTIONS"
        ≠ buildEnvClaim procEnvEx (some launchEnvEx) "p" none "boot.js" "NODE_OPTIONS" := by
  refine ⟨rfl, rfl, ?_⟩
  decide

/-- C8 (amended): the spawned environment is the inherited environment
overridden by the launch-supplied one, further overridden by the endpoint
path variable and the wait-mode variable (`never` when absent, via
JavaScript `||`); the embedded-run marker is removed; and `NODE_OPTIONS`
is the *inherited* environment's value with the preload flag appended —
appending never loses the inherited value, but a launch-supplied
`NODE_OPTIONS` is replaced, not appended to. -/
theorem buildEnv_amended (procEnv : String → Option String)
    (launchEnv : String → Option String) (pipe : String) (attachToNode : Option String)
    (bootloaderJS : String) (opts k : String)
    (hopts : procEnv "NODE_OPTIONS" = some opts) (hne : opts ≠ "")
    (hk : k ∉ ["NODE_OPTIONS", "ELECTRON_RUN_AS_NODE",
      "NODE_INSPECTOR_WAIT_FOR_DEBUGGER", "NODE_INSPECTOR_IPC"]) :
    buildEnv procEnv (some launchEnv) pipe attachToNode bootloaderJS "NODE_OPTIONS"
        = some (opts ++ " --require " ++ bootloaderJS)
    ∧ buildEnv procEnv (some launchEnv) pipe attachToNode bootloaderJS "ELECTRON_RUN_AS_NODE"
        = none
    ∧ buildEnv procEnv (some launchEnv) pipe attachToNode bootloaderJS
        "NODE_INSPECTOR_WAIT_FOR_DEBUGGER" = some (jsOrString attachToNode "never")
    ∧ buildEnv procEnv (some launchEnv) pipe attachToNode bootloaderJS "NODE_INSPECTOR_IPC"
        = some pipe
    ∧ buildEnv procEnv (some launchEnv) pipe attachToNode bootloaderJS k
        = envMergeJS procEnv launchEnv k := by
  simp only [List.mem_cons, List.mem_singleton, not_or] at hk
  obtain ⟨hk₁, hk₂, hk₃, hk₄, -⟩ := hk
  refine ⟨?_, ?_, ?_, ?_, ?_⟩
  · simp [buildEnv, envDelete, envSet, jsOrString, hopts, hne]
  · simp [buildEnv, envDelete]
  · simp [buildEnv, envDelete, envSet]
  · simp [buildEnv, envDelete, envSet]
  · simp [buildEnv, envDelete, envSet, hk₁, hk₂, hk₃, hk₄]

/-- Witness for `buildEnv_amended` at concrete environments and the
ordinary key `PATH`. -/
theorem buildEnv_amended_witness :
    buildEnv procEnvEx (some launchEnvEx) "p" none "boot.js" "NODE_OPTIONS"
        = some ("--flagY" ++ " --require " ++ "boot.js")
    ∧ buildEnv procEnvEx (some launchEnvEx) "p" none "boot.js" "ELECTRON_RUN_AS_NODE" = none
    ∧ buildEnv procEnvEx (some launchEnvEx) "p" none "boot.js"
        "NODE_INSPECTOR_WAIT_FOR_DEBUGGER" = some (jsOrString none "never")
    ∧ buildEnv procEnvEx (some launchEnvEx) "p" none "boot.js" "NODE_INSPECTOR_IPC" = some "p"
    ∧ buildEnv procEnvEx (some launchEnvEx) "p" none "boot.js" "PATH"
        = envMergeJS procEnvEx launchEnvEx "PATH" :=
  buildEnv_amended procEnvEx launchEnvEx "p" none "boot.js" "--flagY" "PATH"
    (by decide) (by decide) (by decide)

/-! ## Launch blocker (`launch`, lines 53–61; `predictBreakpoints`, lines 159–165)

`predictBreakpoints` folds each prediction's future into `_launchBlocker`
(`Promise.all([this._launchBlocker, promise])`); `launch` first returns
early when `params` has no `command` field, otherwise it awaits the
`_launchBlocker` value read at that moment — the fold of every prediction
issued so far — and only then proceeds.  Prediction futures are modelled
up to their resolution events (the collaborator's contract); launch
completion is enabled once the awaited fold has resolved. -/

/-- One `launch()` call: whether its params carried `command`, the set of
prediction ids folded into the blocker it awaits (empty when it returned
early), and whether the call's promise has settled. -/
structure LaunchRec where
  hasCommand : Bool
  snapshot : List Nat
  completed : Bool
  deriving DecidableEq

/-- Launcher state: the predictions folded into `_launchBlocker`, all
issued and all resolved prediction ids, and the launch calls made. -/
structure LState where
  blocker : List Nat
  predIssued : List Nat
  predDone : List Nat
  launches : List LaunchRec
  deriving DecidableEq

/-- Scheduler commands: a prediction request, a prediction future
resolving, a `launch()` call starting, and a `launch()` call finishing
(possible only once every prediction folded into its awaited blocker has
resolved). -/
inductive LCmd
  | predict (id : Nat)
  | predComplete (id : Nat)
  | launchBegin (hasCommand : Bool)
  | launchFinish (j : Nat)
  deriving DecidableEq

/-- One step of the launch/prediction interleaving. -/
def lStep (s : LState) (c : LCmd) : LState :=
  match c with
  | LCmd.predict id =>
    -- lines 162–163: the new future is folded into `_launchBlocker`
    { s with predIssued := s.predIssued ++ [id], blocker := s.blocker ++ [id] }
  | LCmd.predComplete id =>
    { s with predDone := s.predDone ++ [id] }
  | LCmd.launchBegin hasCmd =>
    if hasCmd then
      -- line 56: the blocker value read at the await is the fold of all
      -- predictions issued so far
      { s with launches := s.launches ++ [⟨true, s.blocker, false⟩] }
    else
      -- lines 54–55: no `command` in params — the call returns (settles)
      -- immediately without awaiting the blocker
      { s with launches := s.launches ++ [⟨false, [], true⟩] }
  | LCmd.launchFinish j =>
    match s.launches[j]? with
    | none => s
    | some L =>
      if _h : L.hasCommand = true ∧ L.completed = false ∧ ∀ x ∈ L.snapshot, x ∈ s.predDone then
        { s with launches := s.launches.set j { L with completed := true } }
      else s

theorem lStep_finish_fields (s : LState) (j : Nat) :
    (lStep s (LCmd.launchFinish j)).blocker = s.blocker
    ∧ (lStep s (LCmd.launchFinish j)).predIssued = s.predIssued
    ∧ (lStep s (LCmd.launchFinish j)).predDone = s.predDone := by
  simp only [lStep]
  split
  · exact ⟨rfl, rfl, rfl⟩
  · split
    · exact ⟨rfl, rfl, rfl⟩
    · exact ⟨rfl, rfl, rfl⟩

theorem lStep_finish_launches (s : LState) (j' : Nat) :
    (lStep s (LCmd.launchFinish j')).launches = s.launches
    ∨ ∃ L', s.launches[j']? = some L'
        ∧ (L'.hasCommand = true ∧ L'.completed = false ∧ ∀ x ∈ L'.snapshot, x ∈ s.predDone)
        ∧ (lStep s (LCmd.launchFinish j')).launches
            = s.launches.set j' { L' with completed := true } := by
  simp only [lStep]
  split
  · exact Or.inl rfl
  next L' heq =>
    split
    next hg => exact Or.inr ⟨L', heq, hg, rfl⟩
    next hg => exact Or.inl rfl

/-- Run the launcher machine from its constructed state (line 46:
`_launchBlocker = Promise.resolve()`). -/
def lRun (cs : List LCmd) : LState :=
  cs.foldl lStep ⟨[], [], [], []⟩

theorem lStep_blocker_eq_issued (s : LState) (c : LCmd)
    (h : s.blocker = s.predIssued) : (lStep s c).blocker = (lStep s c).predIssued := by
  cases c with
  | predict id => simp [lStep, h]
  | predComplete id => simpa [lStep] using h
  | launchBegin b => cases b <;> simpa [lStep] using h
  | launchFinish j =>
    rw [(lStep_finish_fields s j).1, (lStep_finish_fields s j).2.1]
    exact h

theorem lRun_blocker_eq_issued (cs : List LCmd) :
    (lRun cs).blocker = (lRun cs).predIssued := by
  suffices haux : ∀ s : LState, s.blocker = s.predIssued →
      (cs.foldl lStep s).blocker = (cs.foldl lStep s).predIssued from
    haux ⟨[], [], [], []⟩ rfl
  induction cs with
  | nil => exact fun s h => h
  | cons c rest ih => exact fun s h => ih (lStep s c) (lStep_blocker_eq_issued s c h)

/-- Stability of a designated launch record: its snapshot and command
flag never change, and once completed every prediction in its snapshot
has resolved. -/
def launchInv (j : Nat) (S : List Nat) (s : LState) : Prop :=
  j < s.launches.length
  ∧ ∀ L, s.launches[j]? = some L →
      L.snapshot = S ∧ L.hasCommand = true
      ∧ (L.completed = true → ∀ x ∈ S, x ∈ s.predDone)

theorem lStep_launchInv (j : Nat) (S : List Nat) (s : LState) (c : LCmd)
    (h : launchInv j S s) : launchInv j S (lStep s c) := by
  obtain ⟨hlen, hrec⟩ := h
  cases c with
  | predict id => exact ⟨hlen, hrec⟩
  | predComplete id =>
    refine ⟨hlen, fun L hL => ?_⟩
    obtain ⟨h₁, h₂, h₃⟩ := hrec L hL
    exact ⟨h₁, h₂, fun hc x hx => List.mem_append_left _ (h₃ hc x hx)⟩
  | launchBegin b =>
    have harr : ∀ t : List LaunchRec, (s.launches ++ t)[j]? = s.launches[j]? := by
      intro t
      rw [List.getElem?_append]
      simp [hlen]
    cases b with
    | true =>
      refine ⟨by simpa [lStep] using Nat.lt_of_lt_of_le hlen (by simp), fun L hL => ?_⟩
      have : s.launches[j]? = some L := by
        rw [← harr [⟨true, s.blocker, false⟩]]
        simpa [lStep] using hL
      exact hrec L this
    | false =>
      refine ⟨by simpa [lStep] using Nat.lt_of_lt_of_le hlen (by simp), fun L hL => ?_⟩
      have : s.launches[j]? = some L := by
        rw [← harr [⟨false, [], true⟩]]
        simpa [lStep] using hL
      exact hrec L this
  | launchFinish j' =>
    have hpd := (lStep_finish_fields s j').2.2
    rcases lStep_finish_launches s j' with hsame | ⟨L', hLj, hg, hset⟩
    · refine ⟨by rw [hsame]; exact hlen, fun L hL => ?_⟩
      rw [hsame] at hL
      obtain ⟨h₁, h₂, h₃⟩ := hrec L hL
      exact ⟨h₁, h₂, fun hc => hpd ▸ h₃ hc⟩
    · refine ⟨by rw [hset]; simpa using hlen, fun L hL => ?_⟩
      rw [hset] at hL
      by_cases hjj : j' = j
      · subst hjj
        rw [List.getElem?_set_self hlen] at hL
        obtain ⟨h₁, h₂, -⟩ := hrec L' hLj
        have hLval : L = { L' with completed := true } := by
          exact (Option.some.inj hL).symm
        subst hLval
        exact ⟨h₁, h₂, fun _ x hx => hpd ▸ hg.2.2 x (h₁ ▸ hx)⟩
      · rw [List.getElem?_set_ne (fun hc => hjj hc)] at hL
        obtain ⟨h₁, h₂, h₃⟩ := hrec L hL
        exact ⟨h₁, h₂, fun hc => hpd ▸ h₃ hc⟩

theorem foldl_launchInv (post : List LCmd) (j : Nat) (S : List Nat) :
    ∀ s : LState, launchInv j S s → launchInv j S (post.foldl lStep s) := by
  induction post with
  | nil => exact fun s h => h
  | cons c rest ih => exact fun s h => ih (lStep s c) (lStep_launchInv j S s c h)

/-- C7 (amended): a `launch()` call whose params carry the required
`command` field settles only after every breakpoint-prediction request
issued before it began has resolved: in any schedule, once that launch
record is completed, all predictions issued before its begin are in
`predDone`.  Predictions issued after the launch began are not waited on:
the separately stated run `launch-begin, predict 9, launch-finish` ends
with the launch completed while prediction 9 is still unresolved. -/
theorem launch_waits_for_prior_predictions (pre post : List LCmd) (L : LaunchRec)
    (hL : (lRun (pre ++ LCmd.launchBegin true :: post)).launches[(lRun pre).launches.length]?
        = some L)
    (hc : L.completed = true) :
    (lRun pre).predIssued ⊆ (lRun (pre ++ LCmd.launchBegin true :: post)).predDone
    ∧ (lRun [LCmd.launchBegin true, LCmd.predict 9, LCmd.launchFinish 0]).launches[0]?
        = some ⟨true, [], true⟩
    ∧ 9 ∉ (lRun [LCmd.launchBegin true, LCmd.predict 9, LCmd.launchFinish 0]).predDone := by
  refine ⟨?_, by decide, by decide⟩
  have hsplit : lRun (pre ++ LCmd.launchBegin true :: post)
      = post.foldl lStep (lStep (lRun pre) (LCmd.launchBegin true)) := by
    simp [lRun, List.foldl_append]
  set s₀ := lRun pre with hs₀
  have hinit : launchInv s₀.launches.length s₀.predIssued (lStep s₀ (LCmd.launchBegin true)) := by
    refine ⟨by simp [lStep], fun L' hL' => ?_⟩
    have : (s₀.launches ++ [⟨true, s₀.blocker, false⟩])[s₀.launches.length]?
        = some (⟨true, s₀.blocker, false⟩ : LaunchRec) :=
      List.getElem?_concat_length _ _
    rw [show (lStep s₀ (LCmd.launchBegin true)).launches
        = s₀.launches ++ [⟨true, s₀.blocker, false⟩] from by simp [lStep], this] at hL'
    obtain rfl : L' = ⟨true, s₀.blocker, false⟩ := by simpa using hL'.symm
    refine ⟨by simpa using (lRun_blocker_eq_issued pre).symm ▸ rfl, rfl, ?_⟩
    intro hfalse
    simp at hfalse
  have hfin := foldl_launchInv post s₀.launches.length s₀.predIssued
    (lStep s₀ (LCmd.launchBegin true)) hinit
  rw [hsplit] at hL
  obtain ⟨-, hrec⟩ := hfin
  obtain ⟨-, -, h₃⟩ := hrec L hL
  intro x hx
  rw [hsplit]
  exact h₃ hc x hx

/-- Witness for `launch_waits_for_prior_predictions`: prediction 3 is
issued, the launch begins, the prediction resolves, the launch
finishes. -/
theorem launch_waits_for_prior_predictions_witness :
    (lRun [LCmd.predict 3]).predIssued
        ⊆ (lRun ([LCmd.predict 3] ++ LCmd.launchBegin true
            :: [LCmd.predComplete 3, LCmd.launchFinish 0])).predDone
    ∧ (lRun [LCmd.launchBegin true, LCmd.predict 9, LCmd.launchFinish 0]).launches[0]?
        = some ⟨true, [], true⟩
    ∧ 9 ∉ (lRun [LCmd.launchBegin true, LCmd.predict 9, LCmd.launchFinish 0]).predDone :=
  launch_waits_for_prior_predictions [LCmd.predict 3]
    [LCmd.predComplete 3, LCmd.launchFinish 0] ⟨true, [3], true⟩ (by decide) (by decide)

/-- C7 (counterexample): a `launch()` call whose params lack the required
`command` field returns — settles — immediately (lines 54–55), before a
previously issued, still-unresolved prediction completes, contradicting
the claim that every `launch()` call completes only after the completion
of every prediction issued before it began. -/
theorem launch_without_command_counterexample :
    0 ∈ (lRun [LCmd.predict 0]).predIssued
    ∧ (lRun [LCmd.predict 0, LCmd.launchBegin false]).launches[0]?
        = some ⟨false, [], true⟩
    ∧ 0 ∉ (lRun [LCmd.predict 0, LCmd.launchBegin false]).predDone := by
  decide

end NodeDelegate
